import Mathlib

/-!
Shallow embedding of the keimai.app graph editor core (src/App.tsx,
src/components/GraphCanvas.tsx, src/types.ts).

Conventions of the embedding:
* JS numbers are modelled as `ℚ`; optional JS fields (`x?: number`) as `Option ℚ`.
* Link endpoints are kept as plain id strings (the canonical form; the
  `getNodeId` helper in the source collapses d3's resolved object references
  back to the id, so the id-only view is the one every transform operates on).
* Non-deterministic fresh-id generation (`Date.now()` / `Math.random()`) is
  modelled by passing the generator as an explicit function parameter.
* React `useState` state is collected into one record `AppState`; each event
  handler becomes a function `AppState → ... → AppState`.
-/

/-- `NodeProperty` from src/types.ts. -/
structure NodeProperty where
  id : String
  key : String
  value : String
  type : String
deriving DecidableEq, Repr, Inhabited

/-- `GraphNode` from src/types.ts, physics fields included
(`x y vx vy fx fy` are the d3-owned optional number fields). -/
structure GraphNode where
  id : String
  label : String
  type : String
  properties : List NodeProperty
  color : Option String := none
  x : Option ℚ := none
  y : Option ℚ := none
  vx : Option ℚ := none
  vy : Option ℚ := none
  fx : Option ℚ := none
  fy : Option ℚ := none
deriving DecidableEq, Repr, Inhabited

/-- `GraphLink` from src/types.ts; `source`/`target` in canonical id form. -/
structure GraphLink where
  id : String
  source : String
  target : String
  label : String
deriving DecidableEq, Repr, Inhabited

/-- `GraphData` from src/types.ts. -/
structure GraphData where
  nodes : List GraphNode
  links : List GraphLink
deriving DecidableEq, Repr, Inhabited

/-- `INITIAL_DATA` from src/App.tsx. -/
def INITIAL_DATA : GraphData :=
  { nodes :=
      [ { id := "1", label := "User", type := "node",
          properties := [{ id := "p1", key := "username", value := "", type := "string" }] },
        { id := "2", label := "Post", type := "document",
          properties := [{ id := "p2", key := "content", value := "", type := "text" }] },
        { id := "3", label := "Comment", type := "document", properties := [] } ],
    links :=
      [ { id := "l1", source := "1", target := "2", label := "AUTHORED" },
        { id := "l2", source := "1", target := "3", label := "WROTE" },
        { id := "l3", source := "3", target := "2", label := "ON" } ] }

/-- The `useState` pieces of the `App` component in src/App.tsx. -/
structure AppState where
  graphData : GraphData
  selectedNodes : List GraphNode
  selectedLinks : List GraphLink
  history : List GraphData
  historyIndex : Nat
  clipboardNodes : List GraphNode
deriving DecidableEq, Repr, Inhabited

/-- The initial `useState` values in src/App.tsx. -/
def initialState : AppState :=
  { graphData := INITIAL_DATA, selectedNodes := [], selectedLinks := [],
    history := [INITIAL_DATA], historyIndex := 0, clipboardNodes := [] }

/-- JS array indexing `history[i]` (defined whenever `i < length`). -/
def getSnap (h : List GraphData) (i : Nat) : GraphData :=
  h.getD i default

/-- `recordHistory` from src/App.tsx:
`slice(0, historyIndex+1)`, `push(newData)`, `shift()` when length exceeds 50,
cursor to the new tail, live graph set to `newData`. -/
def recordHistory (s : AppState) (newData : GraphData) : AppState :=
  let pushed := s.history.take (s.historyIndex + 1) ++ [newData]
  let newHistory := if pushed.length > 50 then pushed.drop 1 else pushed
  { s with history := newHistory,
           historyIndex := newHistory.length - 1,
           graphData := newData }

/-- `handleUndo` from src/App.tsx. -/
def handleUndo (s : AppState) : AppState :=
  if s.historyIndex > 0 then
    let newIndex := s.historyIndex - 1
    { s with historyIndex := newIndex,
             graphData := getSnap s.history newIndex,
             selectedNodes := [], selectedLinks := [] }
  else s

/-- `handleRedo` from src/App.tsx. -/
def handleRedo (s : AppState) : AppState :=
  if s.historyIndex < s.history.length - 1 then
    let newIndex := s.historyIndex + 1
    { s with historyIndex := newIndex,
             graphData := getSnap s.history newIndex,
             selectedNodes := [], selectedLinks := [] }
  else s

/-- `handleNodeSelect` from src/App.tsx (`node = none` models a background
click reaching the handler with `null`). -/
def handleNodeSelect (s : AppState) (node : Option GraphNode) (isMulti : Bool) : AppState :=
  match node with
  | none =>
      if !isMulti then { s with selectedNodes := [], selectedLinks := [] } else s
  | some node =>
      if isMulti then
        let prev := s.selectedNodes
        let newSel :=
          if prev.any (fun n => n.id == node.id) then
            prev.filter (fun n => n.id != node.id)
          else prev ++ [node]
        { s with selectedLinks := [], selectedNodes := newSel }
      else
        { s with selectedLinks := [], selectedNodes := [node] }

/-- `handleLinkSelect` from src/App.tsx. -/
def handleLinkSelect (s : AppState) (link : Option GraphLink) (isMulti : Bool) : AppState :=
  match link with
  | none =>
      if !isMulti then { s with selectedNodes := [], selectedLinks := [] } else s
  | some link =>
      if isMulti then
        let prev := s.selectedLinks
        let newSel :=
          if prev.any (fun l => l.id == link.id) then
            prev.filter (fun l => l.id != link.id)
          else prev ++ [link]
        { s with selectedNodes := [], selectedLinks := newSel }
      else
        { s with selectedNodes := [], selectedLinks := [link] }

/-- `handleDeleteNodes` from src/App.tsx: filter out matching nodes and every
link either of whose endpoints is in `ids`, record, clear node selection. -/
def handleDeleteNodes (s : AppState) (ids : List String) : AppState :=
  let newData : GraphData :=
    { nodes := s.graphData.nodes.filter (fun n => !(ids.contains n.id)),
      links := s.graphData.links.filter
        (fun l => !(ids.contains l.source) && !(ids.contains l.target)) }
  let s1 := recordHistory s newData
  { s1 with selectedNodes := [] }

/-- `handleDeleteLinks` from src/App.tsx. -/
def handleDeleteLinks (s : AppState) (ids : List String) : AppState :=
  let newData : GraphData :=
    { s.graphData with links := s.graphData.links.filter (fun l => !(ids.contains l.id)) }
  let s1 := recordHistory s newData
  { s1 with selectedLinks := [] }

/-- `handleLinkCreate` from src/App.tsx; the `Date.now()`-based id is the
explicit `freshId` parameter. -/
def handleLinkCreate (s : AppState) (freshId sourceId targetId : String) : AppState :=
  let newLink : GraphLink :=
    { id := freshId, source := sourceId, target := targetId, label := "RELATED_TO" }
  recordHistory s { s.graphData with links := s.graphData.links ++ [newLink] }

/-- `handleCopy` from src/App.tsx. -/
def handleCopy (s : AppState) : AppState :=
  if s.selectedNodes.length > 0 then { s with clipboardNodes := s.selectedNodes } else s

/-! ### Copy / paste (src/App.tsx `handlePaste`) -/

/-- The per-node clone built inside the `clipboardNodes.forEach` loop of
`handlePaste`: spread the node, replace id, offset `x`/`y` by 40 (with the JS
`node.x || 0` default), append the `" (Copy)"` label suffix. -/
def pasteCopy (newId : String) (node : GraphNode) : GraphNode :=
  { node with id := newId,
              x := some (node.x.getD 0 + 40),
              y := some (node.y.getD 0 + 40),
              label := node.label ++ " (Copy)" }

/-- The `newNodes` array of `handlePaste`; the fresh id for the clipboard
entry at position `i` is `ngen i`. -/
def pasteNewNodes (ngen : Nat → String) (clip : List GraphNode) : List GraphNode :=
  clip.enum.map (fun p => pasteCopy (ngen p.1) p.2)

/-- The `idMapping` (old id → new id) of `handlePaste`, as an association list
in insertion order. -/
def pasteMapping (ngen : Nat → String) (clip : List GraphNode) : List (String × String) :=
  clip.enum.map (fun p => (p.2.id, ngen p.1))

/-- JS `Map.get` on an association list built by repeated `set`: the most
recent binding wins. -/
def mapGet (m : List (String × String)) (k : String) : Option String :=
  (m.reverse.find? (fun p => p.1 == k)).map (fun p => p.2)

/-- JS `a || b` for an optional string `a` ∈ {undefined, string}: falls through
on `undefined` and on the empty string. -/
def jsOrStr (o : Option String) (dflt : String) : String :=
  match o with
  | none => dflt
  | some v => if v = "" then dflt else v

/-- The `newLinks` array of `handlePaste`: walk `graphData.links`; a link
either of whose endpoints is a clipboard id is re-emitted with a fresh id
(`lgen` indexed by the original link's position) and endpoints remapped by
`idMapping.get(x) || x`; other links contribute nothing. -/
def pasteNewLinks (lgen : Nat → String) (m : List (String × String))
    (clipIds : List String) (links : List GraphLink) : List GraphLink :=
  links.enum.filterMap (fun p =>
    if clipIds.contains p.2.source || clipIds.contains p.2.target then
      some { p.2 with id := lgen p.1,
                      source := jsOrStr (mapGet m p.2.source) p.2.source,
                      target := jsOrStr (mapGet m p.2.target) p.2.target }
    else none)

/-- `handlePaste` from src/App.tsx, with the two `Date.now()`/`Math.random()`
id generators passed explicitly (`ngen` for nodes, `lgen` for links). -/
def handlePaste (s : AppState) (ngen lgen : Nat → String) : AppState :=
  if s.clipboardNodes.length = 0 then s
  else
    let newNodes := pasteNewNodes ngen s.clipboardNodes
    let m := pasteMapping ngen s.clipboardNodes
    let clipIds := s.clipboardNodes.map (fun n => n.id)
    let newLinks := pasteNewLinks lgen m clipIds s.graphData.links
    let newData : GraphData :=
      { nodes := s.graphData.nodes ++ newNodes,
        links := s.graphData.links ++ newLinks }
    let s1 := recordHistory s newData
    { s1 with selectedNodes := newNodes }

/-! ### Import (src/App.tsx `handleImport`) -/

/-- A successfully `JSON.parse`d import payload, typed by the `GraphData`
shape the import path feeds into the store: each of the two collections is
either absent (`undefined`, JS-falsy) or a present array (JS-truthy). -/
structure ParsedDoc where
  nodes : Option (List GraphNode)
  links : Option (List GraphLink)
deriving DecidableEq, Repr

/-- Result of the `fileReader.onload` body: the possibly-updated app state and
whether the `"Invalid JSON format"` branch was taken. -/
structure ImportResult where
  state : AppState
  formatError : Bool
deriving DecidableEq, Repr

/-- `handleImport`'s `onload` logic from src/App.tsx: accept (and record) only
when `parsed.nodes && parsed.links` is truthy, else alert and leave state. -/
def handleImport (s : AppState) (doc : ParsedDoc) : ImportResult :=
  match doc.nodes, doc.links with
  | some ns, some ls => { state := recordHistory s { nodes := ns, links := ls }, formatError := false }
  | _, _ => { state := s, formatError := true }

/-! ### Palette drop and node-count sync
(src/components/GraphCanvas.tsx `handleDrop`, src/App.tsx `handleNodesChange`) -/

/-- `handleNodesChange` from src/App.tsx: record only when the node count
changed (drag frames keep the same count and are ignored). -/
def handleNodesChange (s : AppState) (newNodes : List GraphNode) : AppState :=
  if newNodes.length ≠ s.graphData.nodes.length then
    recordHistory s { s.graphData with nodes := newNodes }
  else s

/-- `handleDrop` from src/components/GraphCanvas.tsx: build the palette node
(the `Date.now()` id is the `freshId` parameter) and hand the appended array
to `handleNodesChange`; a falsy `nodeType` does nothing. -/
def handleDrop (s : AppState) (freshId ty : String) (x y : ℚ) : AppState :=
  if ty = "" then s
  else
    let color := if ty = "table" then "#3b82f6"
                 else if ty = "document" then "#10b981" else "#8b5cf6"
    let newNode : GraphNode :=
      { id := freshId, label := "New Node", type := ty, properties := [],
        x := some x, y := some y, color := some color }
    handleNodesChange s (s.graphData.nodes ++ [newNode])

/-! ### Layout arena rebuild (src/components/GraphCanvas.tsx main effect) -/

/-- `previousNodesMap.get(id)`: JS `Map` built from `nodesRef.current` keyed by
id; on duplicate keys the last insertion wins. -/
def arenaLookup (arena : List GraphNode) (id : String) : Option GraphNode :=
  (arena.reverse.find? (fun o => o.id == id))

/-- The body of the `nodes.map(...)` arena rebuild: a node whose id is already
in the old arena keeps that entry's `x y vx vy fx fy`; a new id is spread
fresh from the incoming data alone. -/
def rebuildEntry (oldArena : List GraphNode) (n : GraphNode) : GraphNode :=
  match arenaLookup oldArena n.id with
  | some existing =>
      { n with x := existing.x, y := existing.y,
               vx := existing.vx, vy := existing.vy,
               fx := existing.fx, fy := existing.fy }
  | none => n

/-- The `nodesRef.current = nodes.map(...)` rebuild of the simulation arena
(src/components/GraphCanvas.tsx, main simulation effect). -/
def rebuildArena (oldArena nodes : List GraphNode) : List GraphNode :=
  nodes.map (rebuildEntry oldArena)

/-! ### Grid correction (src/components/GraphCanvas.tsx tick handler) -/

/-- JS truthiness of an optional number: `undefined` and `0` are falsy. -/
def jsTruthy (o : Option ℚ) : Bool :=
  match o with
  | none => false
  | some v => v != 0

/-- The velocity nudge added to a node by the grid-grouping branch of the tick
handler: inside the `!d.fx && !d.fy && d.x && d.y` guard, each component gets
`(Math.round(c / 100) * 100 - c) * 0.1 * strength`; outside it, nothing. -/
def gridCorrection (strength : ℚ) (d : GraphNode) : ℚ × ℚ :=
  if !(jsTruthy d.fx) && !(jsTruthy d.fy) && jsTruthy d.x && jsTruthy d.y then
    let gridSize : ℚ := 100
    let px := d.x.getD 0
    let py := d.y.getD 0
    (((round (px / gridSize) : ℤ) * gridSize - px) * (1/10) * strength,
     ((round (py / gridSize) : ℤ) * gridSize - py) * (1/10) * strength)
  else (0, 0)

/-! ### Reachable states -/

/-- App states reachable from the initial render through the structural /
history / selection handlers (the operations that funnel through
`recordHistory`, plus undo/redo/selection/copy, which never bypass it).
The cosmetic setters (`handleUpdateNodes`, `handleUpdateLinks`) mutate
`graphData` without recording and are deliberately not steps here. -/
inductive Reachable : AppState → Prop
  | init : Reachable initialState
  | record {s} (d : GraphData) : Reachable s → Reachable (recordHistory s d)
  | undo {s} : Reachable s → Reachable (handleUndo s)
  | redo {s} : Reachable s → Reachable (handleRedo s)
  | nodeSelect {s} (n : Option GraphNode) (b : Bool) :
      Reachable s → Reachable (handleNodeSelect s n b)
  | linkSelect {s} (l : Option GraphLink) (b : Bool) :
      Reachable s → Reachable (handleLinkSelect s l b)
  | deleteNodes {s} (ids : List String) : Reachable s → Reachable (handleDeleteNodes s ids)
  | deleteLinks {s} (ids : List String) : Reachable s → Reachable (handleDeleteLinks s ids)
  | linkCreate {s} (fid src tgt : String) : Reachable s → Reachable (handleLinkCreate s fid src tgt)
  | copy {s} : Reachable s → Reachable (handleCopy s)
  | paste {s} (ngen lgen : Nat → String) : Reachable s → Reachable (handlePaste s ngen lgen)
  | importDoc {s} (doc : ParsedDoc) : Reachable s → Reachable (handleImport s doc).state
  | nodesChange {s} (ns : List GraphNode) : Reachable s → Reachable (handleNodesChange s ns)
  | drop {s} (fid ty : String) (x y : ℚ) : Reachable s → Reachable (handleDrop s fid ty x y)

/-- The history well-formedness invariant every reachable state satisfies:
the cursor is in range, the log is bounded by 50 and non-empty, and the
snapshot under the cursor is the live graph. -/
def HistWF (s : AppState) : Prop :=
  s.historyIndex < s.history.length ∧
  s.history.length ≤ 50 ∧
  getSnap s.history s.historyIndex = s.graphData

/-- States reachable through selection events alone (the universe over which
the selection-exclusivity claim is quantified). -/
inductive SelReachable : AppState → Prop
  | init : SelReachable initialState
  | nodeSelect {s} (n : Option GraphNode) (b : Bool) :
      SelReachable s → SelReachable (handleNodeSelect s n b)
  | linkSelect {s} (l : Option GraphLink) (b : Bool) :
      SelReachable s → SelReachable (handleLinkSelect s l b)

/-- A state whose graph already holds a link with id `"L"`, used to probe the
duplicate-id behaviour of the structural add operations. -/
def dupLinkState : AppState :=
  let g : GraphData :=
    { nodes := [ { id := "a", label := "A", type := "node", properties := [] },
                 { id := "b", label := "B", type := "node", properties := [] } ],
      links := [ { id := "L", source := "a", target := "b", label := "X" } ] }
  { graphData := g, selectedNodes := [], selectedLinks := [],
    history := [g], historyIndex := 0, clipboardNodes := [] }

/-- Concrete node used to probe the grid correction at a grid intersection. -/
def gridNode : GraphNode :=
  { id := "g", label := "G", type := "node", properties := [],
    x := some 100, y := some 200 }

/-- Concrete old-arena entry (id "1") carrying physical state. -/
def arenaNodeOld : GraphNode :=
  { id := "1", label := "Old", type := "node", properties := [],
    x := some 5, y := some 6, vx := some 1, vy := some 2, fx := some 3, fy := some 4 }

/-- Concrete incoming node with the same id but fresh cosmetic data. -/
def arenaNodeNew : GraphNode :=
  { id := "1", label := "Renamed", type := "table", properties := [] }

/-- Concrete state with node "1" selected-and-copied, its neighbour "2", and
one link between them, used to evaluate a paste. -/
def pasteStateW : AppState :=
  let n1 : GraphNode := { id := "1", label := "A", type := "node", properties := [] }
  let n2 : GraphNode := { id := "2", label := "B", type := "node", properties := [] }
  let g : GraphData :=
    { nodes := [n1, n2],
      links := [{ id := "e1", source := "1", target := "2", label := "R" }] }
  { graphData := g, selectedNodes := [n1], selectedLinks := [],
    history := [g], historyIndex := 0, clipboardNodes := [n1] }

/-- Concrete fresh-node-id generator for the paste evaluation. -/
def pgenW : Nat → String := fun _ => "c1"

/-- Concrete fresh-link-id generator for the paste evaluation. -/
def plgenW : Nat → String := fun _ => "k1"

/- ======================================================================
   Theorems
   ====================================================================== -/

example : (handleDeleteNodes initialState ["1"]).graphData.nodes.length = 2 := by decide
example : (handleDeleteNodes initialState ["1"]).graphData.links =
    [{ id := "l3", source := "3", target := "2", label := "ON" }] := by decide
example : (handleUndo (handleDeleteNodes initialState ["1"])).graphData = INITIAL_DATA := by decide

/-! ### History infrastructure -/

theorem getSnap_concat (l : List GraphData) (d : GraphData) :
    getSnap (l ++ [d]) l.length = d := by
  simp [getSnap, List.getD_eq_getElem?_getD, List.getElem?_concat_length]

theorem getSnap_append_left (l l' : List GraphData) (i : Nat) (h : i < l.length) :
    getSnap (l ++ l') i = getSnap l i := by
  simp [getSnap, List.getD_eq_getElem?_getD, List.getElem?_append_left h]

theorem getSnap_take (l : List GraphData) (n i : Nat) (h : i < n) :
    getSnap (l.take n) i = getSnap l i := by
  simp [getSnap, List.getD_eq_getElem?_getD, List.getElem?_take_of_lt h]

theorem getSnap_drop (l : List GraphData) (k i : Nat) :
    getSnap (l.drop k) i = getSnap l (k + i) := by
  simp [getSnap, List.getD_eq_getElem?_getD, List.getElem?_drop]

theorem recordHistory_graphData (s : AppState) (d : GraphData) :
    (recordHistory s d).graphData = d := rfl

theorem recordHistory_historyIndex (s : AppState) (d : GraphData) :
    (recordHistory s d).historyIndex = (recordHistory s d).history.length - 1 := rfl

theorem recordHistory_selections (s : AppState) (d : GraphData) :
    (recordHistory s d).selectedNodes = s.selectedNodes ∧
    (recordHistory s d).selectedLinks = s.selectedLinks := ⟨rfl, rfl⟩

/-- The two shapes `recordHistory` can leave the log in: plain
truncate-and-append, or additionally evicting the head when full. -/
theorem recordHistory_history (s : AppState) (d : GraphData)
    (h1 : s.historyIndex < s.history.length) :
    (recordHistory s d).history =
      if s.historyIndex + 2 > 50 then
        (s.history.take (s.historyIndex + 1)).drop 1 ++ [d]
      else s.history.take (s.historyIndex + 1) ++ [d] := by
  have hlt : (s.history.take (s.historyIndex + 1)).length = s.historyIndex + 1 := by
    rw [List.length_take]; omega
  have hlen : (s.history.take (s.historyIndex + 1) ++ [d]).length = s.historyIndex + 2 := by
    simp [hlt]
  simp only [recordHistory]
  rw [hlen]
  by_cases hc : s.historyIndex + 2 > 50
  · rw [if_pos hc, if_pos hc]
    exact List.drop_append_of_le_length (by omega)
  · rw [if_neg hc, if_neg hc]

theorem histWF_record (s : AppState) (d : GraphData) (h : HistWF s) :
    HistWF (recordHistory s d) := by
  obtain ⟨h1, h2, _⟩ := h
  have hh := recordHistory_history s d h1
  have hlt : (s.history.take (s.historyIndex + 1)).length = s.historyIndex + 1 := by
    rw [List.length_take]; omega
  constructor
  · rw [recordHistory_historyIndex]
    rw [hh]
    by_cases hc : s.historyIndex + 2 > 50 <;> simp [hc, hlt] <;> omega
  constructor
  · rw [hh]
    by_cases hc : s.historyIndex + 2 > 50 <;> simp [hc, hlt] <;> omega
  · rw [recordHistory_historyIndex, recordHistory_graphData, hh]
    by_cases hc : s.historyIndex + 2 > 50
    · rw [if_pos hc]
      have : ((s.history.take (s.historyIndex + 1)).drop 1 ++ [d]).length - 1 =
          ((s.history.take (s.historyIndex + 1)).drop 1).length := by simp
      rw [this]
      exact getSnap_concat _ d
    · rw [if_neg hc]
      have : (s.history.take (s.historyIndex + 1) ++ [d]).length - 1 =
          (s.history.take (s.historyIndex + 1)).length := by simp
      rw [this]
      exact getSnap_concat _ d

theorem histWF_undo (s : AppState) (h : HistWF s) : HistWF (handleUndo s) := by
  obtain ⟨h1, h2, h3⟩ := h
  unfold handleUndo
  by_cases hc : s.historyIndex > 0
  · rw [if_pos hc]
    exact ⟨by simp; omega, by simpa using h2, rfl⟩
  · rw [if_neg hc]; exact ⟨h1, h2, h3⟩

theorem histWF_redo (s : AppState) (h : HistWF s) : HistWF (handleRedo s) := by
  obtain ⟨h1, h2, h3⟩ := h
  unfold handleRedo
  by_cases hc : s.historyIndex < s.history.length - 1
  · rw [if_pos hc]
    exact ⟨by simp; omega, by simpa using h2, rfl⟩
  · rw [if_neg hc]; exact ⟨h1, h2, h3⟩

theorem histWF_nodesChange (s : AppState) (ns : List GraphNode) (h : HistWF s) :
    HistWF (handleNodesChange s ns) := by
  unfold handleNodesChange; split
  · exact histWF_record _ _ h
  · exact h

theorem histWF_reachable (s : AppState) (h : Reachable s) : HistWF s := by
  induction h with
  | init => exact ⟨by decide, by decide, rfl⟩
  | record d _ ih => exact histWF_record _ d ih
  | undo _ ih => exact histWF_undo _ ih
  | redo _ ih => exact histWF_redo _ ih
  | nodeSelect n b _ ih =>
      unfold handleNodeSelect
      cases n <;> dsimp only <;> split <;> exact ih
  | linkSelect l b _ ih =>
      unfold handleLinkSelect
      cases l <;> dsimp only <;> split <;> exact ih
  | deleteNodes ids _ ih => exact histWF_record _ _ ih
  | deleteLinks ids _ ih => exact histWF_record _ _ ih
  | linkCreate fid src tgt _ ih => exact histWF_record _ _ ih
  | copy _ ih =>
      unfold handleCopy; split <;> exact ih
  | paste ngen lgen _ ih =>
      unfold handlePaste; split
      · exact ih
      · exact histWF_record _ _ ih
  | importDoc doc _ ih =>
      unfold handleImport
      split
      · exact histWF_record _ _ ih
      · exact ih
  | nodesChange ns _ ih => exact histWF_nodesChange _ _ ih
  | drop fid ty x y _ ih =>
      unfold handleDrop; split
      · exact ih
      · exact histWF_nodesChange _ _ ih

theorem handleUndo_graphData_sel (x : AppState) :
    (handleUndo { x with selectedNodes := [] }).graphData = (handleUndo x).graphData := by
  unfold handleUndo
  by_cases hc : x.historyIndex > 0 <;> simp [hc]

/-- After any record, one undo lands back on the state that was live when the
record happened. -/
theorem undo_after_record (s : AppState) (d : GraphData) (hwf : HistWF s) :
    (handleUndo (recordHistory s d)).graphData = s.graphData := by
  obtain ⟨h1, h2, h3⟩ := hwf
  have hh := recordHistory_history s d h1
  have hlt : (s.history.take (s.historyIndex + 1)).length = s.historyIndex + 1 := by
    rw [List.length_take]; omega
  have hidx := recordHistory_historyIndex s d
  by_cases hc : s.historyIndex + 2 > 50
  · rw [if_pos hc] at hh
    have hlen : (recordHistory s d).history.length = s.historyIndex + 1 := by
      rw [hh]; simp [hlt]
    have hpos : (recordHistory s d).historyIndex > 0 := by rw [hidx, hlen]; omega
    unfold handleUndo
    rw [if_pos hpos]
    show getSnap (recordHistory s d).history ((recordHistory s d).historyIndex - 1) = _
    rw [hidx, hlen, hh]
    have hd1 : ((s.history.take (s.historyIndex + 1)).drop 1).length = s.historyIndex := by
      simp [hlt]
    rw [getSnap_append_left _ _ _ (by omega), getSnap_drop,
        getSnap_take _ _ _ (by omega)]
    have : 1 + (s.historyIndex + 1 - 1 - 1) = s.historyIndex := by omega
    rw [this, h3]
  · rw [if_neg hc] at hh
    have hlen : (recordHistory s d).history.length = s.historyIndex + 2 := by
      rw [hh]; simp [hlt]
    have hpos : (recordHistory s d).historyIndex > 0 := by rw [hidx, hlen]; omega
    unfold handleUndo
    rw [if_pos hpos]
    show getSnap (recordHistory s d).history ((recordHistory s d).historyIndex - 1) = _
    rw [hidx, hlen, hh]
    have : s.historyIndex + 2 - 1 - 1 = s.historyIndex := by omega
    rw [this,
        getSnap_append_left _ _ _ (by omega),
        getSnap_take _ _ _ (by omega), h3]

/-- C4: for any state reached by a sequence of recorded operations, with the
cursor above 0, undo returns the snapshot at the decremented cursor, redo the
snapshot at the incremented cursor, both clear the selection, and
undo-then-redo restores the graph state present before the undo. -/
theorem undo_redo_round_trip (s : AppState) (h : Reachable s) (h0 : 0 < s.historyIndex) :
    (handleUndo s).graphData = getSnap s.history (s.historyIndex - 1) ∧
    (handleUndo s).historyIndex = s.historyIndex - 1 ∧
    (handleUndo s).selectedNodes = [] ∧
    (handleUndo s).selectedLinks = [] ∧
    (handleRedo (handleUndo s)).graphData =
      getSnap (handleUndo s).history ((handleUndo s).historyIndex + 1) ∧
    (handleRedo (handleUndo s)).historyIndex = (handleUndo s).historyIndex + 1 ∧
    (handleRedo (handleUndo s)).selectedNodes = [] ∧
    (handleRedo (handleUndo s)).selectedLinks = [] ∧
    (handleRedo (handleUndo s)).graphData = s.graphData := by
  obtain ⟨h1, h2, h3⟩ := histWF_reachable s h
  have hu : handleUndo s =
      { s with historyIndex := s.historyIndex - 1,
               graphData := getSnap s.history (s.historyIndex - 1),
               selectedNodes := [], selectedLinks := [] } := by
    unfold handleUndo; rw [if_pos h0]
  have hcond : (handleUndo s).historyIndex < (handleUndo s).history.length - 1 := by
    rw [hu]; simp; omega
  have hr : handleRedo (handleUndo s) =
      { handleUndo s with
          historyIndex := (handleUndo s).historyIndex + 1,
          graphData := getSnap (handleUndo s).history ((handleUndo s).historyIndex + 1),
          selectedNodes := [], selectedLinks := [] } := by
    unfold handleRedo; rw [if_pos hcond]
  refine ⟨by rw [hu], by rw [hu], by rw [hu], by rw [hu], by rw [hr], by rw [hr],
          by rw [hr], by rw [hr], ?_⟩
  rw [hr]
  show getSnap (handleUndo s).history ((handleUndo s).historyIndex + 1) = s.graphData
  rw [hu]
  show getSnap s.history (s.historyIndex - 1 + 1) = s.graphData
  have : s.historyIndex - 1 + 1 = s.historyIndex := by omega
  rw [this, h3]

/-- C5: the history log is capacity-bounded at 50 at all reachable states;
`recordHistory` truncates the redo branch, appends the new state, evicts the
oldest entry exactly when the log would exceed 50, leaves the cursor on the
newest entry, and the newest entry is the live graph. -/
theorem history_capacity (s : AppState) (h : Reachable s) (d : GraphData) :
    s.history.length ≤ 50 ∧
    (recordHistory s d).history.length ≤ 50 ∧
    (recordHistory s d).historyIndex = (recordHistory s d).history.length - 1 ∧
    (recordHistory s d).history.getLast? = some d ∧
    (recordHistory s d).graphData = d ∧
    (s.historyIndex + 1 < 50 →
       (recordHistory s d).history = s.history.take (s.historyIndex + 1) ++ [d]) ∧
    (s.historyIndex + 1 = 50 →
       (recordHistory s d).history = s.history.drop 1 ++ [d]) := by
  obtain ⟨h1, h2, h3⟩ := histWF_reachable s h
  have hh := recordHistory_history s d h1
  refine ⟨h2, (histWF_record s d ⟨h1, h2, h3⟩).2.1, rfl, ?_, rfl, ?_, ?_⟩
  · rw [hh]
    split <;> exact List.getLast?_concat _
  · intro hlt
    rw [hh, if_neg (by omega)]
  · intro heq
    have hlen : s.history.length = 50 := by omega
    rw [hh, if_pos (by omega), List.take_of_length_le (by omega)]

/-- C2: deleting a node id set removes exactly the matching nodes and, in the
same transform, every link whose source or target is in the set; no surviving
link touches the set. -/
theorem delete_cascade (s : AppState) (ids : List String) :
    (∀ n, n ∈ (handleDeleteNodes s ids).graphData.nodes ↔
        n ∈ s.graphData.nodes ∧ n.id ∉ ids) ∧
    (∀ l, l ∈ (handleDeleteNodes s ids).graphData.links ↔
        l ∈ s.graphData.links ∧ l.source ∉ ids ∧ l.target ∉ ids) ∧
    (∀ l, l ∈ (handleDeleteNodes s ids).graphData.links →
        l.source ∉ ids ∧ l.target ∉ ids) := by
  have hn : (handleDeleteNodes s ids).graphData.nodes =
      s.graphData.nodes.filter (fun n => !(ids.contains n.id)) := rfl
  have hl : (handleDeleteNodes s ids).graphData.links =
      s.graphData.links.filter
        (fun l => !(ids.contains l.source) && !(ids.contains l.target)) := rfl
  refine ⟨?_, ?_, ?_⟩
  · intro n
    rw [hn, List.mem_filter]
    simp [List.contains, List.elem_iff]
  · intro l
    rw [hl, List.mem_filter]
    simp [List.contains, List.elem_iff, and_assoc]
  · intro l hmem
    rw [hl, List.mem_filter] at hmem
    have := hmem.2
    simp [List.contains, List.elem_iff] at this
    exact this

/-- C10: `handleDeleteNodes` always records a snapshot and clears the node
selection, even when no id matches: on a well-formed graph a delete of only
absent ids leaves the graph data unchanged, still consumes an undo slot, and
the immediately following undo restores a state equal to the current one. -/
theorem delete_absent_still_records (s : AppState) (h : Reachable s) (ids : List String)
    (habsent : ∀ n ∈ s.graphData.nodes, n.id ∉ ids)
    (hclosed : ∀ l ∈ s.graphData.links,
       (∃ n ∈ s.graphData.nodes, n.id = l.source) ∧
       (∃ n ∈ s.graphData.nodes, n.id = l.target)) :
    (handleDeleteNodes s ids).graphData = s.graphData ∧
    (handleDeleteNodes s ids).selectedNodes = [] ∧
    (handleDeleteNodes s ids).history.getLast? = some s.graphData ∧
    (handleDeleteNodes s ids).historyIndex = (handleDeleteNodes s ids).history.length - 1 ∧
    0 < (handleDeleteNodes s ids).historyIndex ∧
    (s.historyIndex + 1 < 50 →
       (handleDeleteNodes s ids).history.length = s.historyIndex + 2) ∧
    (handleUndo (handleDeleteNodes s ids)).graphData = s.graphData := by
  obtain ⟨h1, h2, h3⟩ := histWF_reachable s h
  have hnodes : s.graphData.nodes.filter (fun n => !(ids.contains n.id)) =
      s.graphData.nodes := by
    rw [List.filter_eq_self]
    intro a ha
    have := habsent a ha
    simpa [List.contains, List.elem_iff] using this
  have hlinks : s.graphData.links.filter
      (fun l => !(ids.contains l.source) && !(ids.contains l.target)) =
      s.graphData.links := by
    rw [List.filter_eq_self]
    intro l hlmem
    obtain ⟨⟨ns, hns, hnse⟩, ⟨nt, hnt, hnte⟩⟩ := hclosed l hlmem
    have hs : l.source ∉ ids := hnse ▸ habsent ns hns
    have ht : l.target ∉ ids := hnte ▸ habsent nt hnt
    simp [List.contains, List.elem_iff, hs, ht]
  have key : handleDeleteNodes s ids =
      { recordHistory s s.graphData with selectedNodes := [] } := by
    unfold handleDeleteNodes
    rw [hnodes, hlinks]
  have hh := recordHistory_history s s.graphData h1
  have hlt : (s.history.take (s.historyIndex + 1)).length = s.historyIndex + 1 := by
    rw [List.length_take]; omega
  have hlen2 : 2 ≤ (recordHistory s s.graphData).history.length := by
    rw [hh]; split <;> simp [hlt] <;> omega
  refine ⟨by rw [key]; try exact rfl, by rw [key]; try exact rfl, ?_,
          by rw [key]; try exact rfl, ?_, ?_, ?_⟩
  · rw [key]
    show (recordHistory s s.graphData).history.getLast? = some s.graphData
    rw [hh]; split <;> exact List.getLast?_concat _
  · rw [key]
    show 0 < (recordHistory s s.graphData).historyIndex
    rw [recordHistory_historyIndex]
    omega
  · intro hsmall
    rw [key]
    show (recordHistory s s.graphData).history.length = s.historyIndex + 2
    rw [hh, if_neg (by omega)]
    simp [hlt]
  · rw [key, handleUndo_graphData_sel]
    exact undo_after_record s s.graphData ⟨h1, h2, h3⟩

/-! ### Import, duplicate ids, selection, grid correction, arena rebuild -/

theorem recordHistory_getLast (s : AppState) (d : GraphData)
    (h1 : s.historyIndex < s.history.length) :
    (recordHistory s d).history.getLast? = some d := by
  rw [recordHistory_history s d h1]
  split <;> exact List.getLast?_concat _

theorem recordHistory_length_small (s : AppState) (d : GraphData)
    (h1 : s.historyIndex < s.history.length) (hsmall : s.historyIndex + 1 < 50) :
    (recordHistory s d).history.length = s.historyIndex + 2 := by
  rw [recordHistory_history s d h1, if_neg (by omega)]
  simp [List.length_take]
  omega

/-- C6: a parsed import document is accepted iff both the `nodes` and the
`links` collection are present; rejection reports a format error and leaves
the whole app state untouched; acceptance fully replaces the graph and
appends one structural history entry with the cursor on it. -/
theorem import_validation (s : AppState) (h : Reachable s) (doc : ParsedDoc) :
    ((handleImport s doc).formatError = false ↔ doc.nodes ≠ none ∧ doc.links ≠ none) ∧
    ((handleImport s doc).formatError = true → (handleImport s doc).state = s) ∧
    (∀ ns ls, doc.nodes = some ns → doc.links = some ls →
       (handleImport s doc).formatError = false ∧
       (handleImport s doc).state.graphData = { nodes := ns, links := ls } ∧
       (handleImport s doc).state.history.getLast? = some { nodes := ns, links := ls } ∧
       (handleImport s doc).state.historyIndex =
         (handleImport s doc).state.history.length - 1 ∧
       (s.historyIndex + 1 < 50 →
          (handleImport s doc).state.history.length = s.historyIndex + 2)) := by
  obtain ⟨h1, h2, h3⟩ := histWF_reachable s h
  obtain ⟨dn, dl⟩ := doc
  refine ⟨?_, ?_, ?_⟩
  · cases dn <;> cases dl <;> simp [handleImport]
  · cases dn <;> cases dl <;> simp [handleImport]
  · intro ns ls hns hls
    cases hns
    cases hls
    exact ⟨rfl, rfl, recordHistory_getLast s _ h1, rfl,
           fun hsmall => recordHistory_length_small s _ h1 hsmall⟩

/-- C7 counterexample: adding a link whose id collides with an existing link
id is not rejected — the graph changes and afterwards two links share the
colliding id, refuting "fails with DuplicateIdError and the graph is left
unchanged". -/
theorem duplicate_add_not_rejected :
    (handleLinkCreate dupLinkState "L" "a" "b").graphData ≠ dupLinkState.graphData ∧
    ((handleLinkCreate dupLinkState "L" "a" "b").graphData.links.filter
        (fun l => l.id == "L")).length = 2 := by
  decide

/-- C7 amended: structural adds perform no duplicate-id check at all — a link
create always appends its link (nodes untouched) and a palette drop always
appends its node (links untouched), whatever the id. -/
theorem add_appends_unconditionally (s : AppState) (freshId src tgt ty : String)
    (x y : ℚ) (hty : ty ≠ "") :
    (handleLinkCreate s freshId src tgt).graphData.links =
      s.graphData.links ++
        [{ id := freshId, source := src, target := tgt, label := "RELATED_TO" }] ∧
    (handleLinkCreate s freshId src tgt).graphData.nodes = s.graphData.nodes ∧
    (handleDrop s freshId ty x y).graphData.nodes =
      s.graphData.nodes ++
        [{ id := freshId, label := "New Node", type := ty, properties := [],
           color := some (if ty = "table" then "#3b82f6"
                          else if ty = "document" then "#10b981" else "#8b5cf6"),
           x := some x, y := some y }] ∧
    (handleDrop s freshId ty x y).graphData.links = s.graphData.links := by
  refine ⟨rfl, rfl, ?_, ?_⟩ <;>
    · unfold handleDrop handleNodesChange
      rw [if_neg hty, if_pos (by simp)]
      exact rfl

/-- C8 counterexample: in the initial state (reachable by the empty sequence
of selection operations) both selection sets are empty, so "exactly one of
the two sets is non-empty at any time" fails. -/
theorem selection_exclusivity_fails_at_init :
    SelReachable initialState ∧
    ¬((initialState.selectedNodes ≠ [] ∧ initialState.selectedLinks = []) ∨
      (initialState.selectedNodes = [] ∧ initialState.selectedLinks ≠ [])) :=
  ⟨SelReachable.init, by decide⟩

/-- C8 amended: at every state reachable by selection operations, at most one
of the two selection sets is non-empty; selecting any node (single or multi)
leaves the link selection empty, and selecting any link leaves the node
selection empty. -/
theorem selection_mutual_exclusion (s : AppState) (h : SelReachable s) :
    (s.selectedNodes = [] ∨ s.selectedLinks = []) ∧
    (∀ n b, (handleNodeSelect s (some n) b).selectedLinks = []) ∧
    (∀ l b, (handleLinkSelect s (some l) b).selectedNodes = []) := by
  refine ⟨?_, ?_, ?_⟩
  · induction h with
    | init => exact Or.inl rfl
    | nodeSelect n b _ ih =>
        cases n <;> cases b
        · exact Or.inl rfl
        · exact ih
        · exact Or.inr rfl
        · exact Or.inr rfl
    | linkSelect l b _ ih =>
        cases l <;> cases b
        · exact Or.inl rfl
        · exact ih
        · exact Or.inl rfl
        · exact Or.inl rfl
  · intro n b; cases b <;> rfl
  · intro l b; cases b <;> rfl

/-- C9: in grid grouping mode, an unpinned node resting exactly on a
grid-cell intersection (both coordinates integer multiples of the 100-unit
grid) receives a zero grid-correction velocity contribution on the tick, for
every strength value. -/
theorem grid_correction_zero_on_grid (strength : ℚ) (d : GraphNode) (k m : ℤ)
    (hfx : d.fx = none) (hfy : d.fy = none)
    (hx : d.x = some ((k : ℚ) * 100)) (hy : d.y = some ((m : ℚ) * 100)) :
    gridCorrection strength d = (0, 0) := by
  unfold gridCorrection
  simp only [hfx, hfy, hx, hy, jsTruthy, Option.getD_some]
  by_cases hk : (k : ℚ) * 100 = 0
  · simp [hk]
  · by_cases hm : (m : ℚ) * 100 = 0
    · simp [hm]
    · have e1 : ((k : ℚ) * 100) / 100 = (k : ℚ) := mul_div_cancel_right₀ _ (by norm_num)
      have e2 : ((m : ℚ) * 100) / 100 = (m : ℚ) := mul_div_cancel_right₀ _ (by norm_num)
      simp [hk, hm, e1, e2, round_intCast]

/-- C3: the arena rebuild preserves length; a node id present in the old
arena keeps that arena entry's position, velocity and pin while taking every
non-physical field from the incoming node; a node id not previously present
is initialized from the incoming node data alone. -/
theorem arena_rebuild_continuity (oldArena nodes : List GraphNode) (i : Nat)
    (n : GraphNode) (h : nodes[i]? = some n) :
    (rebuildArena oldArena nodes).length = nodes.length ∧
    ((arenaLookup oldArena n.id).isSome ↔ ∃ o ∈ oldArena, o.id = n.id) ∧
    ∃ r, (rebuildArena oldArena nodes)[i]? = some r ∧
      (arenaLookup oldArena n.id = none → r = n) ∧
      (∀ o, arenaLookup oldArena n.id = some o →
        r.x = o.x ∧ r.y = o.y ∧ r.vx = o.vx ∧ r.vy = o.vy ∧
        r.fx = o.fx ∧ r.fy = o.fy ∧
        r.id = n.id ∧ r.label = n.label ∧ r.type = n.type ∧
        r.properties = n.properties ∧ r.color = n.color) := by
  refine ⟨by simp [rebuildArena], ?_, ?_⟩
  · unfold arenaLookup
    rw [List.find?_isSome]
    constructor
    · rintro ⟨o, ho, hbeq⟩
      exact ⟨o, List.mem_reverse.mp ho, by simpa using hbeq⟩
    · rintro ⟨o, ho, heq⟩
      exact ⟨o, List.mem_reverse.mpr ho, by simpa using heq⟩
  · refine ⟨rebuildEntry oldArena n, by simp [rebuildArena, List.getElem?_map, h], ?_, ?_⟩
    · intro hnone
      unfold rebuildEntry
      rw [hnone]
    · intro o ho
      unfold rebuildEntry
      rw [ho]
      exact ⟨rfl, rfl, rfl, rfl, rfl, rfl, rfl, rfl, rfl, rfl, rfl⟩

/-! ### Paste infrastructure -/

theorem filterMap_ite {α β : Type} (c : α → Bool) (h : α → β) (l : List α) :
    l.filterMap (fun a => if c a then some (h a) else none) = (l.filter c).map h := by
  induction l with
  | nil => rfl
  | cons a t ih =>
      by_cases hc : c a <;>
        simp [List.filterMap_cons, List.filter_cons, hc, ih]

theorem pasteNewNodes_length (ngen : Nat → String) (clip : List GraphNode) :
    (pasteNewNodes ngen clip).length = clip.length := by
  simp [pasteNewNodes, List.enum_length]

theorem pasteNewNodes_getElem? (ngen : Nat → String) (clip : List GraphNode) (i : Nat) :
    (pasteNewNodes ngen clip)[i]? = (clip[i]?).map (fun n => pasteCopy (ngen i) n) := by
  simp [pasteNewNodes, List.getElem?_map, List.getElem?_enum, Option.map_map]
  rfl

theorem pasteNewNodes_ids (ngen : Nat → String) (clip : List GraphNode) :
    (pasteNewNodes ngen clip).map (fun n => n.id) =
      (List.range clip.length).map ngen := by
  unfold pasteNewNodes
  rw [List.map_map]
  have : ((fun n => n.id) ∘ fun p : Nat × GraphNode => pasteCopy (ngen p.1) p.2) =
      (ngen ∘ Prod.fst) := rfl
  rw [this, ← List.map_map, List.enum_map_fst]

theorem pasteNewLinks_eq (lgen : Nat → String) (m : List (String × String))
    (clipIds : List String) (links : List GraphLink) :
    pasteNewLinks lgen m clipIds links =
      (links.enum.filter
          (fun p => clipIds.contains p.2.source || clipIds.contains p.2.target)).map
        (fun p => { p.2 with id := lgen p.1,
                             source := jsOrStr (mapGet m p.2.source) p.2.source,
                             target := jsOrStr (mapGet m p.2.target) p.2.target }) :=
  filterMap_ite _ _ _

theorem mem_pasteNewLinks (lgen : Nat → String) (m : List (String × String))
    (clipIds : List String) (links : List GraphLink) (nl : GraphLink) :
    nl ∈ pasteNewLinks lgen m clipIds links ↔
      ∃ (j : Nat) (l : GraphLink), links[j]? = some l ∧
        (clipIds.contains l.source || clipIds.contains l.target) = true ∧
        nl = { l with id := lgen j,
                      source := jsOrStr (mapGet m l.source) l.source,
                      target := jsOrStr (mapGet m l.target) l.target } := by
  rw [pasteNewLinks_eq]
  simp only [List.mem_map, List.mem_filter]
  constructor
  · rintro ⟨⟨j, l⟩, ⟨hmem, hc⟩, rfl⟩
    exact ⟨j, l, List.mem_enum_iff_getElem?.mp hmem, hc, rfl⟩
  · rintro ⟨j, l, hj, hc, rfl⟩
    exact ⟨(j, l), ⟨List.mem_enum_iff_getElem?.mpr hj, hc⟩, rfl⟩

theorem pasteNewLinks_length (lgen : Nat → String) (m : List (String × String))
    (clipIds : List String) (links : List GraphLink) :
    (pasteNewLinks lgen m clipIds links).length =
      (links.filter
        (fun l => clipIds.contains l.source || clipIds.contains l.target)).length := by
  rw [pasteNewLinks_eq, List.length_map]
  have h1 : links.filter (fun l => clipIds.contains l.source || clipIds.contains l.target) =
      ((links.enum.map Prod.snd).filter
        (fun l => clipIds.contains l.source || clipIds.contains l.target)) := by
    rw [List.enum_map_snd]
  rw [h1, List.filter_map, List.length_map]
  rfl

theorem pasteNewLinks_ids (lgen : Nat → String) (m : List (String × String))
    (clipIds : List String) (links : List GraphLink) :
    (pasteNewLinks lgen m clipIds links).map (fun l => l.id) =
      (links.enum.filter
          (fun p => clipIds.contains p.2.source || clipIds.contains p.2.target)).map
        (fun p => lgen p.1) := by
  rw [pasteNewLinks_eq, List.map_map]
  rfl

theorem nodup_enum (links : List GraphLink) : links.enum.Nodup :=
  List.Nodup.of_map Prod.fst (by rw [List.enum_map_fst]; exact List.nodup_range _)

theorem mapGet_enumFrom_mapping (ngen : Nat → String) (clip : List GraphNode)
    (start : Nat) (hnodup : (clip.map (fun n => n.id)).Nodup) (x : String) :
    mapGet ((List.enumFrom start clip).map (fun p => (p.2.id, ngen p.1))) x =
      if x ∈ clip.map (fun n => n.id) then
        some (ngen (start + (clip.map (fun n => n.id)).indexOf x))
      else none := by
  induction clip generalizing start with
  | nil => simp [mapGet]
  | cons c t ih =>
      rw [List.map_cons, List.nodup_cons] at hnodup
      obtain ⟨hcid, hnodup'⟩ := hnodup
      have hM := ih (start + 1) hnodup'
      unfold mapGet at hM ⊢
      rw [List.enumFrom_cons, List.map_cons, List.reverse_cons, List.find?_append]
      rw [List.map_cons]
      by_cases hx : x ∈ t.map (fun n => n.id)
      · have hxc : c.id ≠ x := fun hc => hcid (hc ▸ hx)
        rw [if_pos hx] at hM
        obtain ⟨p, hp, hp2⟩ := Option.map_eq_some'.mp hM
        rw [hp]
        rw [if_pos (List.mem_cons.mpr (Or.inr hx))]
        rw [List.indexOf_cons_ne _ hxc]
        simp only [Option.or_some, Option.map_some']
        rw [hp2]
        exact congrArg some (congrArg ngen (by omega))
      · rw [if_neg hx] at hM
        have hA : (((List.enumFrom (start + 1) t).map
              (fun p => (p.2.id, ngen p.1))).reverse).find? (fun p => p.1 == x) = none :=
          Option.map_eq_none'.mp hM
        rw [hA]
        simp only [Option.none_or]
        by_cases hxc : x = c.id
        · subst hxc
          rw [if_pos (List.mem_cons.mpr (Or.inl rfl))]
          rw [List.indexOf_cons_self]
          simp [List.find?]
        · rw [if_neg (by
            intro hmem
            rcases List.mem_cons.mp hmem with h1 | h2
            · exact hxc h1
            · exact hx h2)]
          simp [List.find?]
          rw [show (c.id == x) = false from beq_eq_false_iff_ne.mpr (fun h => hxc h.symm)]

theorem mapGet_pasteMapping (ngen : Nat → String) (clip : List GraphNode)
    (hnodup : (clip.map (fun n => n.id)).Nodup) (x : String) :
    mapGet (pasteMapping ngen clip) x =
      if x ∈ clip.map (fun n => n.id) then
        some (ngen ((clip.map (fun n => n.id)).indexOf x))
      else none := by
  have h := mapGet_enumFrom_mapping ngen clip 0 hnodup x
  simpa [pasteMapping, List.enum] using h

theorem remap_endpoint (ngen : Nat → String) (clip : List GraphNode)
    (hnodup : (clip.map (fun n => n.id)).Nodup)
    (hgenNE : ∀ i < clip.length, ngen i ≠ "") (x : String) :
    jsOrStr (mapGet (pasteMapping ngen clip) x) x =
      if x ∈ clip.map (fun n => n.id) then
        ngen ((clip.map (fun n => n.id)).indexOf x)
      else x := by
  rw [mapGet_pasteMapping ngen clip hnodup x]
  by_cases hx : x ∈ clip.map (fun n => n.id)
  · rw [if_pos hx, if_pos hx]
    show (if ngen ((clip.map (fun n => n.id)).indexOf x) = "" then x
          else ngen ((clip.map (fun n => n.id)).indexOf x)) =
        ngen ((clip.map (fun n => n.id)).indexOf x)
    rw [if_neg (hgenNE _ (by
      have := List.indexOf_lt_length.mpr hx
      simpa using this))]
  · rw [if_neg hx, if_neg hx]
    rfl

theorem handlePaste_eq (s : AppState) (ngen lgen : Nat → String)
    (hne : s.clipboardNodes ≠ []) :
    handlePaste s ngen lgen =
      { recordHistory s
          { nodes := s.graphData.nodes ++ pasteNewNodes ngen s.clipboardNodes,
            links := s.graphData.links ++
              pasteNewLinks lgen (pasteMapping ngen s.clipboardNodes)
                (s.clipboardNodes.map (fun n => n.id)) s.graphData.links }
        with selectedNodes := pasteNewNodes ngen s.clipboardNodes } := by
  unfold handlePaste
  rw [if_neg (by simpa [List.length_eq_zero] using hne)]

/-- C1: pasting a non-empty copied node set appends exactly one fresh-id,
offset, copy-labelled clone per clipboard node; every link of the current
graph touching the copied set gains exactly one fresh-id duplicate whose
endpoints in the set are remapped to the corresponding clone ids and whose
endpoints outside it keep their original ids; untouched links are neither
duplicated nor altered; all original nodes and links survive unchanged; and
the clones become the new selection. -/
theorem paste_spec (s : AppState) (ngen lgen : Nat → String)
    (hne : s.clipboardNodes ≠ [])
    (hnodupClip : (s.clipboardNodes.map (fun n => n.id)).Nodup)
    (hfreshN : ∀ i < s.clipboardNodes.length, ∀ n ∈ s.graphData.nodes, ngen i ≠ n.id)
    (hinjN : ∀ i < s.clipboardNodes.length, ∀ j < s.clipboardNodes.length,
       ngen i = ngen j → i = j)
    (hgenNE : ∀ i < s.clipboardNodes.length, ngen i ≠ "")
    (hfreshL : ∀ i < s.graphData.links.length, ∀ l ∈ s.graphData.links, lgen i ≠ l.id)
    (hinjL : ∀ i < s.graphData.links.length, ∀ j < s.graphData.links.length,
       lgen i = lgen j → i = j) :
    (handlePaste s ngen lgen).graphData.nodes.take s.graphData.nodes.length =
       s.graphData.nodes ∧
    (handlePaste s ngen lgen).graphData.links.take s.graphData.links.length =
       s.graphData.links ∧
    ((handlePaste s ngen lgen).graphData.nodes.drop s.graphData.nodes.length).length =
       s.clipboardNodes.length ∧
    (∀ i n, s.clipboardNodes[i]? = some n →
       ∃ nn, ((handlePaste s ngen lgen).graphData.nodes.drop
                s.graphData.nodes.length)[i]? = some nn ∧
         nn.id = ngen i ∧ (∀ o ∈ s.graphData.nodes, nn.id ≠ o.id) ∧
         nn.x = some (n.x.getD 0 + 40) ∧ nn.y = some (n.y.getD 0 + 40) ∧
         nn.label = n.label ++ " (Copy)" ∧
         nn.type = n.type ∧ nn.properties = n.properties ∧ nn.color = n.color) ∧
    (((handlePaste s ngen lgen).graphData.nodes.drop s.graphData.nodes.length).map
       (fun n => n.id)).Nodup ∧
    ((handlePaste s ngen lgen).graphData.links.drop s.graphData.links.length).length =
       (s.graphData.links.filter
         (fun l => (s.clipboardNodes.map (fun n => n.id)).contains l.source ||
                   (s.clipboardNodes.map (fun n => n.id)).contains l.target)).length ∧
    (((handlePaste s ngen lgen).graphData.links.drop s.graphData.links.length).map
       (fun l => l.id)).Nodup ∧
    (∀ nl ∈ (handlePaste s ngen lgen).graphData.links.drop s.graphData.links.length,
       ∀ l ∈ s.graphData.links, nl.id ≠ l.id) ∧
    (∀ j l, s.graphData.links[j]? = some l →
       ((l.source ∈ s.clipboardNodes.map (fun n => n.id) ∨
         l.target ∈ s.clipboardNodes.map (fun n => n.id)) →
          ∃ nl ∈ (handlePaste s ngen lgen).graphData.links.drop
              s.graphData.links.length,
            nl.id = lgen j ∧
            nl.source = (if l.source ∈ s.clipboardNodes.map (fun n => n.id) then
                ngen ((s.clipboardNodes.map (fun n => n.id)).indexOf l.source)
              else l.source) ∧
            nl.target = (if l.target ∈ s.clipboardNodes.map (fun n => n.id) then
                ngen ((s.clipboardNodes.map (fun n => n.id)).indexOf l.target)
              else l.target) ∧
            nl.label = l.label ∧
            (∀ nl' ∈ (handlePaste s ngen lgen).graphData.links.drop
                s.graphData.links.length, nl'.id = lgen j → nl' = nl)) ∧
       ((l.source ∉ s.clipboardNodes.map (fun n => n.id) ∧
         l.target ∉ s.clipboardNodes.map (fun n => n.id)) →
          ∀ nl ∈ (handlePaste s ngen lgen).graphData.links.drop
              s.graphData.links.length, nl.id ≠ lgen j)) ∧
    (handlePaste s ngen lgen).selectedNodes =
      (handlePaste s ngen lgen).graphData.nodes.drop s.graphData.nodes.length := by
  have hG : (handlePaste s ngen lgen).graphData =
      { nodes := s.graphData.nodes ++ pasteNewNodes ngen s.clipboardNodes,
        links := s.graphData.links ++
          pasteNewLinks lgen (pasteMapping ngen s.clipboardNodes)
            (s.clipboardNodes.map (fun n => n.id)) s.graphData.links } := by
    rw [handlePaste_eq s ngen lgen hne]; exact rfl
  have hSel : (handlePaste s ngen lgen).selectedNodes =
      pasteNewNodes ngen s.clipboardNodes := by
    rw [handlePaste_eq s ngen lgen hne]
  have hNodes : (handlePaste s ngen lgen).graphData.nodes =
      s.graphData.nodes ++ pasteNewNodes ngen s.clipboardNodes := by rw [hG]
  have hLinks : (handlePaste s ngen lgen).graphData.links =
      s.graphData.links ++
        pasteNewLinks lgen (pasteMapping ngen s.clipboardNodes)
          (s.clipboardNodes.map (fun n => n.id)) s.graphData.links := by rw [hG]
  have hND : (handlePaste s ngen lgen).graphData.nodes.drop s.graphData.nodes.length =
      pasteNewNodes ngen s.clipboardNodes := by
    rw [hNodes]; exact List.drop_left _ _
  have hLD : (handlePaste s ngen lgen).graphData.links.drop s.graphData.links.length =
      pasteNewLinks lgen (pasteMapping ngen s.clipboardNodes)
        (s.clipboardNodes.map (fun n => n.id)) s.graphData.links := by
    rw [hLinks]; exact List.drop_left _ _
  have hcontains : ∀ (a : String) (L : List String),
      (L.contains a = true) ↔ a ∈ L := by
    intro a L; simp [List.contains, List.elem_iff]
  refine ⟨?_, ?_, ?_, ?_, ?_, ?_, ?_, ?_, ?_, ?_⟩
  · rw [hNodes]; exact List.take_left _ _
  · rw [hLinks]; exact List.take_left _ _
  · rw [hND]; exact pasteNewNodes_length _ _
  · intro i n hin
    have hi : i < s.clipboardNodes.length := by
      rcases List.getElem?_eq_some_iff.mp hin with ⟨h, _⟩
      exact h
    refine ⟨pasteCopy (ngen i) n, ?_, rfl, ?_, rfl, rfl, rfl, rfl, rfl, rfl⟩
    · rw [hND, pasteNewNodes_getElem?, hin]; rfl
    · intro o ho
      exact hfreshN i hi o ho
  · rw [hND, pasteNewNodes_ids]
    exact List.Nodup.map_on
      (fun a ha b hb hab =>
        hinjN a (List.mem_range.mp ha) b (List.mem_range.mp hb) hab)
      (List.nodup_range _)
  · rw [hLD]; exact pasteNewLinks_length _ _ _ _
  · rw [hLD, pasteNewLinks_ids]
    refine List.Nodup.map_on ?_ (List.Nodup.filter _ (nodup_enum _))
    intro p hp q hq hpq
    have hpe := (List.mem_filter.mp hp).1
    have hqe := (List.mem_filter.mp hq).1
    have hp? := List.mem_enum_iff_getElem?.mp hpe
    have hq? := List.mem_enum_iff_getElem?.mp hqe
    have hplt : p.1 < s.graphData.links.length :=
      (List.getElem?_eq_some_iff.mp hp?).1
    have hqlt : q.1 < s.graphData.links.length :=
      (List.getElem?_eq_some_iff.mp hq?).1
    have h1 : p.1 = q.1 := hinjL p.1 hplt q.1 hqlt hpq
    have h2 : p.2 = q.2 := by
      rw [h1] at hp?
      exact Option.some.inj (hp?.symm.trans hq?)
    exact Prod.ext h1 h2
  · intro nl hnl l0 hl0
    rw [hLD] at hnl
    obtain ⟨j, l, hj, _, rfl⟩ := (mem_pasteNewLinks _ _ _ _ _).mp hnl
    have hjlt : j < s.graphData.links.length := (List.getElem?_eq_some_iff.mp hj).1
    exact hfreshL j hjlt l0 hl0
  · intro j l hjl
    have hjlt : j < s.graphData.links.length := (List.getElem?_eq_some_iff.mp hjl).1
    constructor
    · intro hor
      have hctrue : ((s.clipboardNodes.map (fun n => n.id)).contains l.source ||
          (s.clipboardNodes.map (fun n => n.id)).contains l.target) = true := by
        rcases hor with hmem | hmem
        · exact Bool.or_eq_true_iff.mpr (Or.inl ((hcontains _ _).mpr hmem))
        · exact Bool.or_eq_true_iff.mpr (Or.inr ((hcontains _ _).mpr hmem))
      refine ⟨{ l with id := lgen j, source := jsOrStr (mapGet (pasteMapping ngen s.clipboardNodes) l.source) l.source, target := jsOrStr (mapGet (pasteMapping ngen s.clipboardNodes) l.target) l.target }, ?_, rfl, ?_, ?_, rfl, ?_⟩
      · rw [hLD]
        exact (mem_pasteNewLinks _ _ _ _ _).mpr ⟨j, l, hjl, hctrue, rfl⟩
      · exact remap_endpoint ngen s.clipboardNodes hnodupClip hgenNE l.source
      · exact remap_endpoint ngen s.clipboardNodes hnodupClip hgenNE l.target
      · intro nl' hnl' hid
        rw [hLD] at hnl'
        obtain ⟨j', l', hj', _, rfl⟩ := (mem_pasteNewLinks _ _ _ _ _).mp hnl'
        have hj'lt : j' < s.graphData.links.length :=
          (List.getElem?_eq_some_iff.mp hj').1
        have hjj : j' = j := hinjL j' hj'lt j hjlt hid
        subst hjj
        have hll : l' = l := Option.some.inj (hj'.symm.trans hjl)
        subst hll
        rfl
    · rintro ⟨hs, ht⟩ nl hnl hid
      rw [hLD] at hnl
      obtain ⟨j', l', hj', hc', rfl⟩ := (mem_pasteNewLinks _ _ _ _ _).mp hnl
      have hj'lt : j' < s.graphData.links.length :=
        (List.getElem?_eq_some_iff.mp hj').1
      have hjj : j' = j := hinjL j' hj'lt j hjlt hid
      subst hjj
      have hll : l' = l := Option.some.inj (hj'.symm.trans hjl)
      subst hll
      rcases Bool.or_eq_true_iff.mp hc' with hcc | hcc
      · exact hs ((hcontains _ _).mp hcc)
      · exact ht ((hcontains _ _).mp hcc)
  · rw [hSel, hND]

/-! ### Witnesses -/

theorem undo_redo_round_trip_witness :
    (handleRedo (handleUndo (recordHistory initialState INITIAL_DATA))).graphData =
      (recordHistory initialState INITIAL_DATA).graphData :=
  (undo_redo_round_trip (recordHistory initialState INITIAL_DATA)
    (Reachable.record INITIAL_DATA Reachable.init) (by decide)).2.2.2.2.2.2.2.2

theorem history_capacity_witness :
    initialState.history.length ≤ 50 ∧
    (recordHistory initialState INITIAL_DATA).history.getLast? = some INITIAL_DATA := by
  have h := history_capacity initialState Reachable.init INITIAL_DATA
  exact ⟨h.1, h.2.2.2.1⟩

theorem delete_cascade_witness :
    ({ id := "l1", source := "1", target := "2", label := "AUTHORED" } : GraphLink) ∉
      (handleDeleteNodes initialState ["1"]).graphData.links := by
  intro hmem
  have h := ((delete_cascade initialState ["1"]).2.2 _ hmem).1
  exact h (by decide)

theorem delete_absent_still_records_witness :
    (handleDeleteNodes initialState ["zzz"]).graphData = initialState.graphData ∧
    (handleUndo (handleDeleteNodes initialState ["zzz"])).graphData =
      initialState.graphData := by
  have h := delete_absent_still_records initialState Reachable.init ["zzz"]
    (by decide) (by decide)
  exact ⟨h.1, h.2.2.2.2.2.2⟩

theorem import_validation_witness :
    (handleImport initialState { nodes := some [], links := none }).state =
      initialState :=
  (import_validation initialState Reachable.init
    { nodes := some [], links := none }).2.1 (by decide)

theorem add_appends_unconditionally_witness :
    (handleLinkCreate initialState "l1" "1" "2").graphData.links =
      initialState.graphData.links ++
        [{ id := "l1", source := "1", target := "2", label := "RELATED_TO" }] :=
  (add_appends_unconditionally initialState "l1" "1" "2" "node" 0 0 (by decide)).1

theorem selection_mutual_exclusion_witness :
    initialState.selectedNodes = [] ∨ initialState.selectedLinks = [] :=
  (selection_mutual_exclusion initialState SelReachable.init).1

theorem grid_correction_zero_on_grid_witness :
    gridCorrection 3 gridNode = (0, 0) :=
  grid_correction_zero_on_grid 3 gridNode 1 2 rfl rfl
    (show some (100 : ℚ) = some (((1 : ℤ) : ℚ) * 100) from congrArg some (by norm_num))
    (show some (200 : ℚ) = some (((2 : ℤ) : ℚ) * 100) from congrArg some (by norm_num))

theorem arena_rebuild_continuity_witness :
    (rebuildArena [arenaNodeOld] [arenaNodeNew]).length = 1 :=
  (arena_rebuild_continuity [arenaNodeOld] [arenaNodeNew] 0 arenaNodeNew rfl).1

theorem paste_spec_witness :
    (handlePaste pasteStateW pgenW plgenW).graphData.nodes.take 2 =
      pasteStateW.graphData.nodes ∧
    (handlePaste pasteStateW pgenW plgenW).selectedNodes =
      (handlePaste pasteStateW pgenW plgenW).graphData.nodes.drop 2 := by
  have h := paste_spec pasteStateW pgenW plgenW (by decide) (by decide) (by decide)
    (by decide) (by decide) (by decide) (by decide)
  exact ⟨h.1, h.2.2.2.2.2.2.2.2.2⟩
